import Mathlib

/-
Verification of src/TTS/utils/training.py (training-loop helper utilities).

The Python file is shallowly embedded below.  Conventions:
* Python floats that only flow through classification checks (isinf, isnan)
  are modelled by the inductive PyFloat, which separates finite values,
  the two infinities and NaN.
* Python floats that only flow through exact field arithmetic and selection
  are modelled by the rationals; the inverse-square-root learning-rate
  formulas, which use fractional powers, are modelled over the reals with
  Real.rpow.
* Fallible Python code (IndexError, ValueError, TypeError on None
  subscription) is modelled with Except PyErr.
-/

/-- Classification of a Python/NumPy floating-point scalar: a finite value,
positive or negative infinity, or NaN. -/
inductive PyFloat where
  | finite (q : ℚ)
  | posInf
  | negInf
  | nan
deriving DecidableEq

/-- Value returned by the gradient-clipping primitive
(torch.nn.utils.clip_grad_norm_, library code outside this repository):
older torch versions return a plain Python float, newer ones a
zero-dimensional tensor.  Both carry one floating-point scalar. -/
inductive GradNormRet where
  | scalarFloat (v : PyFloat)
  | tensor (v : PyFloat)
deriving DecidableEq

/-- numpy.isinf on a scalar: true exactly on the two infinities
(false on NaN). -/
def np_isinf : PyFloat → Bool
  | PyFloat.posInf => true
  | PyFloat.negInf => true
  | _ => false

/-- torch.isinf on a zero-dimensional tensor: true exactly on the two
infinities (false on NaN). -/
def torch_isinf : PyFloat → Bool
  | PyFloat.posInf => true
  | PyFloat.negInf => true
  | _ => false

/-- The floating-point scalar carried by either return path. -/
def GradNormRet.val : GradNormRet → PyFloat
  | GradNormRet.scalarFloat v => v
  | GradNormRet.tensor v => v

/-- A scalar is non-finite when it is NaN or an infinity. -/
def PyFloat.nonFinite : PyFloat → Bool
  | PyFloat.nan => true
  | PyFloat.posInf => true
  | PyFloat.negInf => true
  | _ => false

/-- A scalar is an infinity. -/
def PyFloat.isInfVal : PyFloat → Bool
  | PyFloat.posInf => true
  | PyFloat.negInf => true
  | _ => false

/-- check_update, lines 16-40 of src/TTS/utils/training.py, restricted to the
part after the call to the clip primitive (the primitive itself is torch
library code; its returned norm is the input here).  skip_flag starts False;
on the scalar-float path it is set by np.isinf, on the tensor path by
torch.isinf; the pair (grad_norm, skip_flag) is returned. -/
def check_update (grad_norm : GradNormRet) : GradNormRet × Bool :=
  match grad_norm with
  | GradNormRet.scalarFloat v => (grad_norm, np_isinf v)
  | GradNormRet.tensor v => (grad_norm, torch_isinf v)

/-- Claim C1 counterexample: on a NaN-valued norm (scalar-float path) the
returned flag is False although NaN is non-finite, so the claimed
equivalence "flag is True iff the norm is NaN or infinite" is false. -/
theorem check_update_nan_counterexample :
    ¬ (((check_update (GradNormRet.scalarFloat PyFloat.nan)).2 = true) ↔
        (GradNormRet.scalarFloat PyFloat.nan).val.nonFinite = true) := by
  decide

/-- Claim C1 (amended): check_update returns skip_flag = True iff the norm
returned by the clip primitive is positive or negative infinity; a NaN norm
yields False.  This holds on both the scalar-float and the tensor-shaped
return path. -/
theorem check_update_inf_iff (r : GradNormRet) :
    (check_update r).2 = true ↔ r.val.isInfVal = true := by
  cases r with
  | scalarFloat v => cases v <;> simp [check_update, np_isinf, GradNormRet.val, PyFloat.isInfVal]
  | tensor v => cases v <;> simp [check_update, torch_isinf, GradNormRet.val, PyFloat.isInfVal]

/-- Python exception kinds that the embedded code can raise.  configError
and noScheduleFound stand for the explicit errors the spec asks for; the
embedded code never produces them. -/
inductive PyErr where
  | indexError
  | valueError
  | noneTypeError
  | configError
  | noScheduleFound
deriving DecidableEq

/-- gradual_training_scheduler, lines 136-147: scan the config entries in
order, remembering the last entry whose threshold is at most
global_step * num_gpus (num_gpus being the device count, or 1 when there are
no devices); finally subscript the remembered entry.  Subscripting None
(no entry ever qualified) is a TypeError in Python. -/
def gradual_training_scheduler (global_step : ℕ) (gradual_training : List (ℕ × ℕ × ℕ))
    (device_count : ℕ) : Except PyErr (ℕ × ℕ) :=
  let num_gpus := if device_count = 0 then 1 else device_count
  let new_values : Option (ℕ × ℕ × ℕ) :=
    gradual_training.foldl
      (fun acc values => if global_step * num_gpus ≥ values.1 then some values else acc) none
  match new_values with
  | some v => Except.ok (v.2.1, v.2.2)
  | none => Except.error PyErr.noneTypeError

theorem find?_singleton_def {α : Type} (p : α → Bool) (x : α) :
    [x].find? p = if p x then some x else none := by
  by_cases h : p x <;> simp [List.find?, h]

theorem foldl_keep_last {α : Type} (P : α → Prop) [DecidablePred P] (l : List α) :
    ∀ acc : Option α,
      l.foldl (fun a v => if P v then some v else a) acc =
        match l.reverse.find? (fun v => decide (P v)) with
        | some v => some v
        | none => acc := by
  induction l with
  | nil => intro acc; rfl
  | cons x t ih =>
      intro acc
      simp only [List.foldl_cons, List.reverse_cons]
      rw [ih, List.find?_append]
      cases h : t.reverse.find? (fun v => decide (P v)) with
      | some v => simp [Option.or]
      | none =>
          by_cases hx : P x <;>
            simp [Option.or, find?_singleton_def, hx]

theorem head?_filter_eq_find? {α : Type} (p : α → Bool) (l : List α) :
    (l.filter p).head? = l.find? p := by
  induction l with
  | nil => rfl
  | cons x t ih =>
      by_cases h : p x <;> simp [List.filter_cons, List.find?_cons, h, ih]

theorem getLast?_filter_eq_find?_reverse {α : Type} (p : α → Bool) (l : List α) :
    (l.filter p).getLast? = l.reverse.find? p := by
  rw [← List.head?_reverse, ← List.filter_reverse, head?_filter_eq_find?]

theorem if_dc_eq_max (device_count : ℕ) :
    (if device_count = 0 then 1 else device_count) = max device_count 1 := by
  by_cases h : device_count = 0
  · subst h; rfl
  · rw [if_neg h]; omega

/-- Claim C2: with strictly increasing thresholds, gradual_training_scheduler
returns the (batch_size, grad_accum_steps) of the last config entry whose
threshold is at most global_step * max(device_count, 1); in particular, with
entries [(0,32,1),(1000,16,2),(2000,8,4)] and one device it returns (32,1) at
step 500, (16,2) at step 1500 and (8,4) at step 5000. -/
theorem gradual_training_scheduler_last_entry :
    (∀ (global_step device_count : ℕ) (entries : List (ℕ × ℕ × ℕ)) (e : ℕ × ℕ × ℕ),
        entries.Pairwise (fun a b => a.1 < b.1) →
        (entries.filter fun v => decide (v.1 ≤ global_step * max device_count 1)).getLast?
          = some e →
        gradual_training_scheduler global_step entries device_count
          = Except.ok (e.2.1, e.2.2)) ∧
    gradual_training_scheduler 500 [(0, 32, 1), (1000, 16, 2), (2000, 8, 4)] 1
      = Except.ok (32, 1) ∧
    gradual_training_scheduler 1500 [(0, 32, 1), (1000, 16, 2), (2000, 8, 4)] 1
      = Except.ok (16, 2) ∧
    gradual_training_scheduler 5000 [(0, 32, 1), (1000, 16, 2), (2000, 8, 4)] 1
      = Except.ok (8, 4) := by
  refine ⟨?_, rfl, rfl, rfl⟩
  intro global_step device_count entries e _ hlast
  rw [getLast?_filter_eq_find?_reverse] at hlast
  simp only [gradual_training_scheduler, if_dc_eq_max]
  rw [foldl_keep_last]
  have hsome :
      (entries.reverse.find? fun v => decide (global_step * max device_count 1 ≥ v.1))
        = some e := by
    simpa [ge_iff_le] using hlast
  rw [hsome]

/-- Claim C2 witness: the general statement applied to the first concrete
example from the claim. -/
theorem gradual_training_scheduler_last_entry_witness :
    ([(0, 32, 1), (1000, 16, 2), (2000, 8, 4)] : List (ℕ × ℕ × ℕ)).Pairwise
        (fun a b => a.1 < b.1) ∧
    gradual_training_scheduler 500 [(0, 32, 1), (1000, 16, 2), (2000, 8, 4)] 1
      = Except.ok (32, 1) :=
  ⟨by decide,
   gradual_training_scheduler_last_entry.1 500 1
     [(0, 32, 1), (1000, 16, 2), (2000, 8, 4)] (0, 32, 1) (by decide) (by decide)⟩

/-- Claim C8 counterexample: when no entry qualifies the scheduler fails by
subscripting the absent (None) selection result — a TypeError — which is not
the explicit "no schedule found for step" error the claim demands. -/
theorem gradual_training_scheduler_none_counterexample :
    gradual_training_scheduler 0 [(1000, 16, 2)] 1 = Except.error PyErr.noneTypeError ∧
    PyErr.noneTypeError ≠ PyErr.noScheduleFound := ⟨rfl, by decide⟩

/-- Claim C8 (amended): whenever no config entry has threshold at most
global_step * max(device_count, 1), gradual_training_scheduler fails by
dereferencing the absent (None) selection result (a TypeError), not with an
explicit "no schedule found for step" error. -/
theorem gradual_training_scheduler_none_deref (global_step device_count : ℕ)
    (entries : List (ℕ × ℕ × ℕ))
    (h : ∀ v ∈ entries, ¬ v.1 ≤ global_step * max device_count 1) :
    gradual_training_scheduler global_step entries device_count
      = Except.error PyErr.noneTypeError := by
  simp only [gradual_training_scheduler, if_dc_eq_max]
  rw [foldl_keep_last]
  have hnone :
      (entries.reverse.find? fun v => decide (global_step * max device_count 1 ≥ v.1))
        = none := by
    rw [List.find?_eq_none]
    intro v hv
    simpa [ge_iff_le] using h v (List.mem_reverse.mp hv)
  rw [hnone]

/-- Claim C8 amended-theorem witness at a concrete non-qualifying config. -/
theorem gradual_training_scheduler_none_deref_witness :
    (∀ v ∈ ([(1000, 16, 2)] : List (ℕ × ℕ × ℕ)), ¬ v.1 ≤ 0 * max 1 1) ∧
    gradual_training_scheduler 0 [(1000, 16, 2)] 1 = Except.error PyErr.noneTypeError :=
  ⟨by decide, gradual_training_scheduler_none_deref 0 1 [(1000, 16, 2)] (by decide)⟩

/-- A torch parameter tensor as it is seen by adam_weight_decay: the value
in param.data and the gradient in param.grad (each modelled by one exact
scalar; the elementwise tensor operation acts identically on every entry). -/
structure TorchParam where
  data : ℚ
  grad : ℚ
deriving DecidableEq

/-- One optimizer parameter group: a learning rate, a weight-decay
coefficient and the parameters of the group. -/
structure ParamGroup where
  lr : ℚ
  weight_decay : ℚ
  params : List TorchParam
deriving DecidableEq

/-- Body of the inner loop of adam_weight_decay (lines 57-62): for each
parameter, current_lr is set to the group learning rate, the factor
-weight_decay * lr is formed and param.data is replaced by
param.data.add(param.data, alpha=factor). -/
def awdParamStep (lr weight_decay : ℚ) (st : List TorchParam × Option ℚ)
    (p : TorchParam) : List TorchParam × Option ℚ :=
  (st.1 ++ [{ p with data := p.data + -weight_decay * lr * p.data }], some lr)

/-- Body of the outer loop of adam_weight_decay (lines 56-62), iterating the
inner loop over the parameters of one group. -/
def awdGroupStep (st : List ParamGroup × Option ℚ) (g : ParamGroup) :
    List ParamGroup × Option ℚ :=
  let inner := g.params.foldl (awdParamStep g.lr g.weight_decay) ([], st.2)
  (st.1 ++ [{ g with params := inner.1 }], inner.2)

/-- adam_weight_decay, lines 52-63: applies the decay factor to every
parameter of every group and returns the (mutated) groups together with
current_lr.  current_lr is a Python local that is only assigned inside the
parameter loop: when no group contains a parameter the final
`return optimizer, current_lr` reads an unbound variable, modelled as
none. -/
def adam_weight_decay (param_groups : List ParamGroup) :
    List ParamGroup × Option ℚ :=
  param_groups.foldl awdGroupStep ([], none)

theorem awdParamStep_foldl (lr wd : ℚ) (ps : List TorchParam) :
    ∀ (init : List TorchParam) (cur : Option ℚ),
      ps.foldl (awdParamStep lr wd) (init, cur) =
        (init ++ ps.map (fun p => { p with data := p.data + -wd * lr * p.data }),
         if ps.isEmpty then cur else some lr) := by
  induction ps with
  | nil => intro init cur; simp
  | cons p t ih =>
      intro init cur
      simp only [List.foldl_cons, awdParamStep, List.map_cons, List.isEmpty_cons]
      rw [ih]
      simp

/-- The effect of the adam_weight_decay loops on one group, written as a
map over its parameters. -/
def awdGroupUpd (g : ParamGroup) : ParamGroup :=
  { g with
    params := g.params.map
      (fun p => { p with data := p.data + -g.weight_decay * g.lr * p.data }) }

theorem awdGroupStep_foldl (gs : List ParamGroup) :
    ∀ (init : List ParamGroup) (cur : Option ℚ),
      gs.foldl awdGroupStep (init, cur) =
        (init ++ gs.map awdGroupUpd,
         match gs.reverse.find? (fun g => !g.params.isEmpty) with
         | some g => some g.lr
         | none => cur) := by
  induction gs with
  | nil => intro init cur; simp
  | cons g t ih =>
      intro init cur
      simp only [List.foldl_cons, List.reverse_cons, List.map_cons]
      rw [show awdGroupStep (init, cur) g =
            (init ++ [awdGroupUpd g], if g.params.isEmpty then cur else some g.lr) by
          simp [awdGroupStep, awdParamStep_foldl, awdGroupUpd]]
      rw [ih, List.find?_append]
      cases h : t.reverse.find? (fun g => !g.params.isEmpty) with
      | some v => simp [Option.or]
      | none =>
          cases hp : g.params.isEmpty <;>
            simp [Option.or, find?_singleton_def, hp]

/-- Claim C10: adam_weight_decay replaces each parameter p of each group g
in place by p * (1 - g.lr * g.weight_decay), leaves gradients untouched, and
returns the groups paired with the learning rate of the last group that
contains at least one parameter (none — an unbound Python variable — when no
group has any parameter). -/
theorem adam_weight_decay_spec_thm (param_groups : List ParamGroup) :
    adam_weight_decay param_groups =
      (param_groups.map
         (fun g =>
           { g with
             params := g.params.map
               (fun p =>
                 { data := p.data * (1 - g.lr * g.weight_decay), grad := p.grad }) }),
       ((param_groups.filter fun g => !g.params.isEmpty).getLast?).map
         (fun g => g.lr)) := by
  unfold adam_weight_decay
  rw [awdGroupStep_foldl]
  refine Prod.ext ?_ ?_
  · simp only [List.nil_append]
    apply List.map_congr_left
    intro g _
    simp only [awdGroupUpd]
    congr 1
    apply List.map_congr_left
    intro p _
    congr 1
    ring
  · rw [getLast?_filter_eq_find?_reverse]
    cases h : param_groups.reverse.find? (fun g => !g.params.isEmpty) <;> simp

/-- Python list subscription with an integer index: a negative index counts
from the end; an index outside the list raises IndexError. -/
def pyIdx {α : Type} (l : List α) (i : ℤ) : Except PyErr α :=
  let j : ℤ := if i < 0 then (l.length : ℤ) + i else i
  if h : 0 ≤ j ∧ j < (l.length : ℤ) then
    Except.ok (l.get ⟨j.toNat, by omega⟩)
  else Except.error PyErr.indexError

/-- Index of the first False in a list of booleans:
np.where(boolean_indeces == False)[0] followed by taking element [0].
none corresponds to the empty index array (the element access raises
IndexError in the source, which is caught and leaves first_false bound to
the empty array). -/
def firstFalseIdx : List Bool → Option ℕ
  | [] => none
  | b :: t => if b = false then some 0 else (firstFalseIdx t).map (fun n => n + 1)

/-- StepwiseGradualLR.get_lr, lines 112-134, as a function of the config
(config.gradual_learning_rates), the scheduler step counter (last_epoch) and
the number of base learning rates (one per optimizer param group).
NumPy semantics used by the source and reflected here:
* np.less gives the elementwise list of threshold < step;
* when some threshold is not below step, first_false is a scalar index and
  np.max(first_false - 1, 0) passes 0 as the AXIS argument, so it is the
  identity on the scalar (no clamping at 0), and rates[first_false - 1]
  uses Python indexing (so -1 selects the last rate);
* when every threshold is below step, first_false[0] raises IndexError,
  the handler passes, first_false stays bound to the empty index array and
  np.max over the empty array raises an uncaught ValueError;
* the two conditional-expression lines subscript step_thresholds and rates,
  raising IndexError when the config has fewer than two entries;
* np.tile broadcasts the selected rate to one copy per base learning rate. -/
def stepwise_get_lr (gradual_learning_rates : List (ℕ × ℚ)) (last_epoch : ℤ)
    (num_base_lrs : ℕ) : Except PyErr (List ℚ) :=
  let step : ℤ := max last_epoch 1
  let step_thresholds : List ℕ := gradual_learning_rates.map (fun v => v.1)
  let rates : List ℚ := gradual_learning_rates.map (fun v => v.2)
  let boolean_indeces : List Bool := step_thresholds.map (fun t => decide ((t : ℤ) < step))
  match firstFalseIdx boolean_indeces with
  | none => Except.error PyErr.valueError
  | some first_false => do
      let lr0 ← pyIdx rates ((first_false : ℤ) - 1)
      let last_thr ← pyIdx step_thresholds (-1)
      let lr1 ← if step > (last_thr : ℤ) then pyIdx rates (-1) else Except.ok lr0
      let second_thr ← pyIdx step_thresholds 1
      let lr2 ← if step < (second_thr : ℤ) then pyIdx rates 0 else Except.ok lr1
      Except.ok (List.replicate num_base_lrs lr2)

/-- Claim C3 evaluation (code bug): with the stepwise config
[(0, 0.1), (100, 0.01), (200, 0.001)] the scheduler returns 0.1 at step 50
and 0.01 at step 150 (broadcast to two param groups), but at step 300 —
where the claim and the source comments expect the last rate 0.001 — every
threshold is below the step, first_false remains the empty index array and
np.max over it raises an uncaught ValueError. -/
theorem stepwise_get_lr_examples_eval :
    stepwise_get_lr [(0, 1/10), (100, 1/100), (200, 1/1000)] 50 2
      = Except.ok [1/10, 1/10] ∧
    stepwise_get_lr [(0, 1/10), (100, 1/100), (200, 1/1000)] 150 2
      = Except.ok [1/100, 1/100] ∧
    stepwise_get_lr [(0, 1/10), (100, 1/100), (200, 1/1000)] 300 2
      = Except.error PyErr.valueError := by
  refine ⟨?_, ?_, ?_⟩ <;> rfl

/-- Claim C7 counterexample: with a single-entry config the scheduler raises
a plain IndexError (subscripting step_thresholds[1]) instead of an explicit
configuration error. -/
theorem stepwise_get_lr_short_config_counterexample :
    stepwise_get_lr [(5, 1/10)] 1 1 = Except.error PyErr.indexError ∧
    PyErr.indexError ≠ PyErr.configError := ⟨rfl, by decide⟩

/-- Claim C7 (amended): with fewer than two threshold/rate pairs the
stepwise scheduler raises an index-out-of-range style fault — an uncaught
ValueError on the empty index array, or an IndexError on
step_thresholds[1] — never an explicit configuration error. -/
theorem stepwise_get_lr_short_config_fault (config : List (ℕ × ℚ)) (last_epoch : ℤ)
    (num_base_lrs : ℕ) (h : config.length < 2) :
    stepwise_get_lr config last_epoch num_base_lrs = Except.error PyErr.valueError ∨
    stepwise_get_lr config last_epoch num_base_lrs = Except.error PyErr.indexError := by
  match config with
  | [] => left; rfl
  | [a] =>
      by_cases hc : (a.1 : ℤ) < max last_epoch 1
      · left
        simp [stepwise_get_lr, firstFalseIdx, hc]
      · right
        simp only [stepwise_get_lr, List.map_cons, List.map_nil, firstFalseIdx]
        rw [if_pos (by simpa using hc)]
        simp [pyIdx, hc, bind, Except.bind]
  | a :: b :: t => simp at h; omega

/-- Claim C7 amended-theorem witness at a concrete one-entry config. -/
theorem stepwise_get_lr_short_config_fault_witness :
    ([((5 : ℕ), (1 : ℚ)/10)].length < 2) ∧
    (stepwise_get_lr [(5, 1/10)] 1 1 = Except.error PyErr.valueError ∨
     stepwise_get_lr [(5, 1/10)] 1 1 = Except.error PyErr.indexError) :=
  ⟨by decide, stepwise_get_lr_short_config_fault [(5, 1/10)] 1 1 (by decide)⟩

/-- Does pat occur at the beginning of s (helper for Python substring
containment). -/
def subBeg : List Char → List Char → Bool
  | [], _ => true
  | _ :: _, [] => false
  | p :: ps, c :: cs => p == c && subBeg ps cs

/-- Python `pat in s` on strings: pat occurs contiguously somewhere in s. -/
def hasSub (pat : List Char) : List Char → Bool
  | [] => subBeg pat []
  | c :: cs => subBeg pat (c :: cs) || hasSub pat cs

/-- A named model parameter as seen by set_weight_decay: its dotted name,
its tensor shape and its requires_grad flag. -/
structure NamedParam where
  name : List Char
  shape : List ℕ
  requires_grad : Bool
deriving DecidableEq

/-- The reserved parameter name skipped at line 75. -/
def capacitronBeta : List Char := "capacitron_layer.beta".toList

/-- The default skip set of line 66. -/
def default_skip_list : List (List Char) :=
  ["decoder.attention.v".toList, "rnn".toList, "lstm".toList, "gru".toList,
   "embedding".toList]

/-- An optimizer param-group descriptor as returned by set_weight_decay. -/
structure WDGroup where
  params : List NamedParam
  weight_decay : ℚ
deriving DecidableEq

/-- The no-decay condition of line 80: rank-1 shape, or the name contains
one of the skip substrings. -/
def swdCond (skip_list : List (List Char)) (p : NamedParam) : Bool :=
  p.shape.length == 1 || skip_list.any (fun s => hasSub s p.name)

/-- A parameter enters either group only when it is not the reserved
capacitron parameter and has gradients enabled (lines 74-78). -/
def swdEligible (p : NamedParam) : Bool :=
  !(decide (p.name = capacitronBeta)) && p.requires_grad

/-- Body of the loop of set_weight_decay, lines 73-83. -/
def swdStep (skip_list : List (List Char)) (acc : List NamedParam × List NamedParam)
    (p : NamedParam) : List NamedParam × List NamedParam :=
  if p.name = capacitronBeta then acc
  else if p.requires_grad = false then acc
  else if swdCond skip_list p then (acc.1 ++ [p], acc.2)
  else (acc.1, acc.2 ++ [p])

/-- set_weight_decay, lines 66-90: partition the named parameters into the
no-decay list and the decay list, and return the two param-group
descriptors. -/
def set_weight_decay (named_parameters : List NamedParam) (weight_decay : ℚ)
    (skip_list : List (List Char) := default_skip_list) : List WDGroup :=
  let nd := named_parameters.foldl (swdStep skip_list) ([], [])
  [{ params := nd.1, weight_decay := 0 },
   { params := nd.2, weight_decay := weight_decay }]

theorem swdStep_foldl (skip_list : List (List Char)) (ps : List NamedParam) :
    ∀ accN accD : List NamedParam,
      ps.foldl (swdStep skip_list) (accN, accD) =
        (accN ++ ps.filter (fun q => swdEligible q && swdCond skip_list q),
         accD ++ ps.filter (fun q => swdEligible q && !swdCond skip_list q)) := by
  induction ps with
  | nil => intro accN accD; simp
  | cons p t ih =>
      intro accN accD
      simp only [List.foldl_cons, List.filter_cons]
      by_cases h1 : p.name = capacitronBeta
      · rw [show swdStep skip_list (accN, accD) p = (accN, accD) by simp [swdStep, h1]]
        rw [ih]
        simp [swdEligible, h1]
      · cases hg : p.requires_grad with
        | false =>
            rw [show swdStep skip_list (accN, accD) p = (accN, accD) by
                  simp [swdStep, h1, hg]]
            rw [ih]
            simp [swdEligible, hg]
        | true =>
            cases hcnd : swdCond skip_list p with
            | true =>
                rw [show swdStep skip_list (accN, accD) p = (accN ++ [p], accD) by
                      simp [swdStep, h1, hg, hcnd]]
                rw [ih]
                simp [swdEligible, h1, hg, hcnd]
            | false =>
                rw [show swdStep skip_list (accN, accD) p = (accN, accD ++ [p]) by
                      simp [swdStep, h1, hg, hcnd]]
                rw [ih]
                simp [swdEligible, h1, hg, hcnd]

/-- Claim C4: every rank-1 trainable parameter and every trainable parameter
whose name contains a skip substring lands in the no-decay group (whose
weight_decay is 0); every other trainable parameter lands in the decay group
(with the configured coefficient); each trainable parameter — other than the
reserved capacitron_layer.beta and parameters with gradients disabled —
appears in exactly one of the two groups. -/
theorem set_weight_decay_partition (named_parameters : List NamedParam)
    (weight_decay : ℚ) (skip_list : List (List Char)) (p : NamedParam)
    (hmem : p ∈ named_parameters) (hname : p.name ≠ capacitronBeta)
    (hgrad : p.requires_grad = true) :
    ∃ no_decay decay,
      set_weight_decay named_parameters weight_decay skip_list =
        [{ params := no_decay, weight_decay := 0 },
         { params := decay, weight_decay := weight_decay }] ∧
      ((p.shape.length = 1 ∨ ∃ s ∈ skip_list, hasSub s p.name = true) →
        p ∈ no_decay ∧ p ∉ decay) ∧
      (¬ (p.shape.length = 1 ∨ ∃ s ∈ skip_list, hasSub s p.name = true) →
        p ∈ decay ∧ p ∉ no_decay) ∧
      ((p ∈ no_decay ∧ p ∉ decay) ∨ (p ∈ decay ∧ p ∉ no_decay)) := by
  have hfold := swdStep_foldl skip_list named_parameters [] []
  have hcond : (swdCond skip_list p = true) ↔
      (p.shape.length = 1 ∨ ∃ s ∈ skip_list, hasSub s p.name = true) := by
    simp [swdCond]
  have helig : swdEligible p = true := by
    simp [swdEligible, hname, hgrad]
  have hmem1 : p ∈ (named_parameters.foldl (swdStep skip_list) ([], [])).1 ↔
      (p.shape.length = 1 ∨ ∃ s ∈ skip_list, hasSub s p.name = true) := by
    rw [hfold]
    simp only [List.nil_append]
    rw [← hcond]
    simp [List.mem_filter, helig, hmem]
  have hmem2 : p ∈ (named_parameters.foldl (swdStep skip_list) ([], [])).2 ↔
      ¬ (p.shape.length = 1 ∨ ∃ s ∈ skip_list, hasSub s p.name = true) := by
    rw [hfold]
    simp only [List.nil_append]
    rw [← hcond]
    simp [List.mem_filter, helig, hmem]
  refine ⟨(named_parameters.foldl (swdStep skip_list) ([], [])).1,
          (named_parameters.foldl (swdStep skip_list) ([], [])).2, rfl,
          fun hc => ⟨hmem1.mpr hc, fun hd => (hmem2.mp hd) hc⟩,
          fun hc => ⟨hmem2.mpr hc, fun hn => hc (hmem1.mp hn)⟩, ?_⟩
  by_cases hc : p.shape.length = 1 ∨ ∃ s ∈ skip_list, hasSub s p.name = true
  · exact Or.inl ⟨hmem1.mpr hc, fun hd => (hmem2.mp hd) hc⟩
  · exact Or.inr ⟨hmem2.mpr hc, fun hn => hc (hmem1.mp hn)⟩

/-- Claim C4 witness: a concrete rank-2 trainable parameter whose name
matches no skip substring. -/
def sampleParam : NamedParam :=
  { name := "layer1.weight".toList, shape := [3, 3], requires_grad := true }

theorem set_weight_decay_partition_witness :
    sampleParam ∈ [sampleParam] ∧ sampleParam.name ≠ capacitronBeta ∧
    sampleParam.requires_grad = true ∧
    (∃ no_decay decay,
      set_weight_decay [sampleParam] (3/2) default_skip_list =
        [{ params := no_decay, weight_decay := 0 },
         { params := decay, weight_decay := 3/2 }] ∧
      ((sampleParam.shape.length = 1 ∨
          ∃ s ∈ default_skip_list, hasSub s sampleParam.name = true) →
        sampleParam ∈ no_decay ∧ sampleParam ∉ decay) ∧
      (¬ (sampleParam.shape.length = 1 ∨
          ∃ s ∈ default_skip_list, hasSub s sampleParam.name = true) →
        sampleParam ∈ decay ∧ sampleParam ∉ no_decay) ∧
      ((sampleParam ∈ no_decay ∧ sampleParam ∉ decay) ∨
       (sampleParam ∈ decay ∧ sampleParam ∉ no_decay))) :=
  ⟨by decide, by decide, rfl,
   set_weight_decay_partition [sampleParam] (3/2) default_skip_list sampleParam
     (by decide) (by decide) rfl⟩

/-- lr_decay, lines 43-49: the inverse-square-root warm-up formula
init_lr * warmup_steps^0.5 * min(step * warmup_steps^-1.5, step^-0.5) with
step = global_step + 1.  Python floats are modelled by the reals, ** by
Real.rpow and np.minimum by min; warmup_steps is integral as in the spec's
interface (the source converts it with float()). -/
noncomputable def lr_decay (init_lr : ℝ) (global_step : ℕ) (warmup_steps : ℕ) : ℝ :=
  init_lr * (warmup_steps : ℝ) ^ (0.5 : ℝ) *
    min (((global_step : ℝ) + 1) * (warmup_steps : ℝ) ^ (-1.5 : ℝ))
        (((global_step : ℝ) + 1) ^ (-0.5 : ℝ))

/-- NoamLR.get_lr, lines 99-105: per base learning rate, the same
inverse-square-root formula with step = max(last_epoch, 1); the scheduler
step counter may be -1 before the first step, hence the integer type and
the max. -/
noncomputable def noam_get_lr (warmup_steps : ℕ) (last_epoch : ℤ)
    (base_lrs : List ℝ) : List ℝ :=
  base_lrs.map (fun base_lr =>
    base_lr * (warmup_steps : ℝ) ^ (0.5 : ℝ) *
      min (((max last_epoch 1 : ℤ) : ℝ) * (warmup_steps : ℝ) ^ (-1.5 : ℝ))
          (((max last_epoch 1 : ℤ) : ℝ) ^ (-0.5 : ℝ)))

/-- Claim C5: lr_decay returns
init_lr * warmup_steps^(1/2) * min(step * warmup_steps^(-3/2), step^(-1/2))
with step = global_step + 1. -/
theorem lr_decay_formula (init_lr : ℝ) (global_step warmup_steps : ℕ)
    (h : 0 < warmup_steps) :
    lr_decay init_lr global_step warmup_steps =
      init_lr * (warmup_steps : ℝ) ^ ((1 : ℝ)/2) *
        min (((global_step : ℝ) + 1) * (warmup_steps : ℝ) ^ (-(3 : ℝ)/2))
            (((global_step : ℝ) + 1) ^ (-(1 : ℝ)/2)) := by
  unfold lr_decay
  norm_num

/-- Claim C5 witness at init_lr = 1, global_step = 0, warmup_steps = 4. -/
theorem lr_decay_formula_witness :
    0 < 4 ∧
    lr_decay 1 0 4 =
      1 * ((4 : ℕ) : ℝ) ^ ((1 : ℝ)/2) *
        min ((((0 : ℕ) : ℝ) + 1) * ((4 : ℕ) : ℝ) ^ (-(3 : ℝ)/2))
            ((((0 : ℕ) : ℝ) + 1) ^ (-(1 : ℝ)/2)) :=
  ⟨by norm_num, lr_decay_formula 1 0 4 (by norm_num)⟩

theorem rpow_one_add_half {s : ℝ} (hs : 0 < s) :
    s * s ^ ((1 : ℝ)/2) = s ^ ((3 : ℝ)/2) := by
  nth_rewrite 1 [show s = s ^ (1 : ℝ) by rw [Real.rpow_one]]
  rw [← Real.rpow_add hs]
  norm_num

theorem stepwise_min_left {s w : ℝ} (hs : 0 < s) (hw : 0 < w) (hsw : s ≤ w) :
    min (s * w ^ (-1.5 : ℝ)) (s ^ (-0.5 : ℝ)) = s * w ^ (-1.5 : ℝ) := by
  apply min_eq_left
  rw [show (-1.5 : ℝ) = -((3 : ℝ)/2) by norm_num,
      show (-0.5 : ℝ) = -((1 : ℝ)/2) by norm_num,
      Real.rpow_neg hw.le, Real.rpow_neg hs.le,
      ← div_eq_mul_inv, inv_eq_one_div,
      div_le_div_iff (Real.rpow_pos_of_pos hw _) (Real.rpow_pos_of_pos hs _)]
  rw [rpow_one_add_half hs, one_mul]
  exact Real.rpow_le_rpow hs.le hsw (by norm_num)

theorem stepwise_min_right {s w : ℝ} (hs : 0 < s) (hw : 0 < w) (hws : w ≤ s) :
    min (s * w ^ (-1.5 : ℝ)) (s ^ (-0.5 : ℝ)) = s ^ (-0.5 : ℝ) := by
  apply min_eq_right
  rw [show (-1.5 : ℝ) = -((3 : ℝ)/2) by norm_num,
      show (-0.5 : ℝ) = -((1 : ℝ)/2) by norm_num,
      Real.rpow_neg hw.le, Real.rpow_neg hs.le,
      ← div_eq_mul_inv, inv_eq_one_div,
      div_le_div_iff (Real.rpow_pos_of_pos hs _) (Real.rpow_pos_of_pos hw _)]
  rw [one_mul, rpow_one_add_half hs]
  exact Real.rpow_le_rpow hw.le hws (by norm_num)

/-- Claim C6: with positive init_lr and warmup_steps > 1, lr_decay is
strictly increasing in global_step while global_step < warmup_steps and
strictly decreasing in global_step while global_step > warmup_steps. -/
theorem lr_decay_monotone (init_lr : ℝ) (warmup_steps : ℕ)
    (h_pos : 0 < init_lr) (h_ws : 1 < warmup_steps) :
    (∀ gs1 gs2 : ℕ, gs1 < gs2 → gs2 < warmup_steps →
        lr_decay init_lr gs1 warmup_steps < lr_decay init_lr gs2 warmup_steps) ∧
    (∀ gs1 gs2 : ℕ, warmup_steps < gs1 → gs1 < gs2 →
        lr_decay init_lr gs2 warmup_steps < lr_decay init_lr gs1 warmup_steps) := by
  have hw : (0 : ℝ) < (warmup_steps : ℝ) := by
    have : 0 < warmup_steps := by omega
    exact_mod_cast this
  have hA : (0 : ℝ) < init_lr * (warmup_steps : ℝ) ^ (0.5 : ℝ) :=
    mul_pos h_pos (Real.rpow_pos_of_pos hw _)
  constructor
  · intro gs1 gs2 h12 h2w
    have hs1 : (0 : ℝ) < (gs1 : ℝ) + 1 := by positivity
    have hs2 : (0 : ℝ) < (gs2 : ℝ) + 1 := by positivity
    have hle1 : (gs1 : ℝ) + 1 ≤ (warmup_steps : ℝ) := by
      have : gs1 + 1 ≤ warmup_steps := by omega
      exact_mod_cast this
    have hle2 : (gs2 : ℝ) + 1 ≤ (warmup_steps : ℝ) := by
      have : gs2 + 1 ≤ warmup_steps := by omega
      exact_mod_cast this
    unfold lr_decay
    rw [stepwise_min_left hs1 hw hle1, stepwise_min_left hs2 hw hle2]
    refine mul_lt_mul_of_pos_left ?_ hA
    refine mul_lt_mul_of_pos_right ?_ (Real.rpow_pos_of_pos hw _)
    have : (gs1 : ℝ) < (gs2 : ℝ) := by exact_mod_cast h12
    linarith
  · intro gs1 gs2 hw1 h12
    have hs1 : (0 : ℝ) < (gs1 : ℝ) + 1 := by positivity
    have hs2 : (0 : ℝ) < (gs2 : ℝ) + 1 := by positivity
    have hge1 : (warmup_steps : ℝ) ≤ (gs1 : ℝ) + 1 := by
      have : warmup_steps ≤ gs1 + 1 := by omega
      exact_mod_cast this
    have hge2 : (warmup_steps : ℝ) ≤ (gs2 : ℝ) + 1 := by
      have : warmup_steps ≤ gs2 + 1 := by omega
      exact_mod_cast this
    unfold lr_decay
    rw [stepwise_min_right hs1 hw hge1, stepwise_min_right hs2 hw hge2]
    refine mul_lt_mul_of_pos_left ?_ hA
    rw [show (-0.5 : ℝ) = -((1 : ℝ)/2) by norm_num,
        Real.rpow_neg hs1.le, Real.rpow_neg hs2.le]
    apply inv_lt_inv_of_lt (Real.rpow_pos_of_pos hs1 _)
    refine Real.rpow_lt_rpow hs1.le ?_ (by norm_num)
    have : (gs1 : ℝ) < (gs2 : ℝ) := by exact_mod_cast h12
    linarith

/-- Claim C6 witness: init_lr = 1, warmup_steps = 2, increasing on
steps 0 < 1 < 2 and decreasing on steps 3 < 4 beyond the warm-up. -/
theorem lr_decay_monotone_witness :
    (0 : ℝ) < 1 ∧ 1 < 2 ∧
    lr_decay 1 0 2 < lr_decay 1 1 2 ∧
    lr_decay 1 4 2 < lr_decay 1 3 2 :=
  ⟨one_pos, by norm_num,
   (lr_decay_monotone 1 2 one_pos (by norm_num)).1 0 1 (by norm_num) (by norm_num),
   (lr_decay_monotone 1 2 one_pos (by norm_num)).2 3 4 (by norm_num) (by norm_num)⟩

/-- Claim C9: for warmup_steps > 0 and last_epoch ≥ 1, the stateful
NoamLR.get_lr returns, per base learning rate, exactly
lr_decay(base_lr, last_epoch - 1, warmup_steps): the scheduler step
max(last_epoch, 1) coincides with lr_decay's step = global_step + 1 at
global_step = last_epoch - 1. -/
theorem noam_get_lr_refines_lr_decay (warmup_steps : ℕ) (last_epoch : ℤ)
    (base_lrs : List ℝ) (h_ws : 0 < warmup_steps) (h_le : 1 ≤ last_epoch) :
    noam_get_lr warmup_steps last_epoch base_lrs =
      base_lrs.map (fun base_lr => lr_decay base_lr (last_epoch - 1).toNat warmup_steps) := by
  simp only [noam_get_lr, lr_decay]
  apply List.map_congr_left
  intro b _
  have hmax : max last_epoch 1 = last_epoch := max_eq_left h_le
  have hcast : (((last_epoch - 1).toNat : ℝ)) + 1 = ((last_epoch : ℤ) : ℝ) := by
    have h0 : ((last_epoch - 1).toNat : ℤ) = last_epoch - 1 := Int.toNat_of_nonneg (by omega)
    have h1 : (((last_epoch - 1).toNat : ℤ) : ℝ) = ((last_epoch : ℤ) : ℝ) - 1 := by
      rw [h0]
      push_cast
      ring
    push_cast at h1 ⊢
    linarith
  rw [hmax, hcast]

/-- Claim C9 witness at warmup_steps = 4, last_epoch = 3, one base rate. -/
theorem noam_get_lr_refines_lr_decay_witness :
    0 < 4 ∧ (1 : ℤ) ≤ 3 ∧
    noam_get_lr 4 3 [1] =
      [(1 : ℝ)].map (fun base_lr => lr_decay base_lr ((3 : ℤ) - 1).toNat 4) :=
  ⟨by norm_num, by norm_num,
   noam_get_lr_refines_lr_decay 4 3 [1] (by norm_num) (by norm_num)⟩
